import Mathlib

/-!
Verification of the 4most-4gp spectral pipeline.

We shallowly embed the numeric logic of `fourgp_fourfs/fourfs.py`
(`FourFS.combine_spectra`, `FourFS.generate_4fs_template_list`,
`FourFS.make_fits_spectral_template`) and of
`fourgp_speclib/spectrum_array.py` (`SpectrumArray.extract_item`).

Floating-point wavelengths, fluxes and fluences are modelled as rationals
(`ℚ`); the magnitude renormalisation, which genuinely uses a real power,
is modelled over `ℝ`.  NumPy `np.where` index extraction, fancy indexing
and index assignment are modelled over lists of rationals; Python dicts
that are mutated in place are modelled with an explicit heap of
association lists.
-/

namespace FourGP

/-! ### NumPy index machinery

`np.where(pred(arr))[0]` returns the list of indices where the predicate
holds; `arr[indices]` (fancy indexing) selects those entries in order;
`arr[indices] = 0` zeroes those entries.
-/

/-- Model of `np.where(p(arr))[0]`: the indices of `l` at which `p` holds,
in increasing order. -/
def npWhere (p : ℚ → Bool) (l : List ℚ) : List ℕ :=
  (List.range l.length).filter fun i => p (l.getD i 0)

/-- Model of NumPy fancy indexing `arr[idx]`: select the entries of `l` at
the given indices, in the order the indices are listed. -/
def npSelect (l : List ℚ) (idx : List ℕ) : List ℚ :=
  idx.filterMap fun i => l[i]?

/-- Model of the NumPy index assignment `arr[idx] = 0`: the array whose
entries at positions in `idx` are zero and whose other entries are those
of `l`. -/
def npSetZero (l : List ℚ) (idx : List ℕ) : List ℚ :=
  (List.range l.length).map fun i => if i ∈ idx then 0 else l.getD i 0

theorem npWhere_nil (p : ℚ → Bool) : npWhere p [] = [] := rfl

theorem npWhere_cons (p : ℚ → Bool) (a : ℚ) (t : List ℚ) :
    npWhere p (a :: t) =
      (if p a then [0] else []) ++ (npWhere p t).map Nat.succ := by
  unfold npWhere
  rw [List.length_cons, List.range_succ_eq_map, List.filter_cons, List.filter_map]
  have hcongr : List.filter ((fun i => p ((a :: t).getD i 0)) ∘ Nat.succ)
        (List.range t.length) =
      List.filter (fun i => p (t.getD i 0)) (List.range t.length) := by
    apply List.filter_congr
    intro i _
    simp [Function.comp_def]
  rw [hcongr]
  simp only [List.getD_cons_zero]
  by_cases hpa : p a = true <;> simp [npWhere, hpa]

theorem npSelect_map_succ (a : ℚ) (t : List ℚ) (idx : List ℕ) :
    npSelect (a :: t) (idx.map Nat.succ) = npSelect t idx := by
  unfold npSelect
  rw [List.filterMap_map]
  congr 1
  funext i
  simp [Function.comp, List.getElem?_cons_succ, Nat.succ_eq_add_one]

/-- Selecting the entries at the indices `np.where` returns is exactly
filtering the array by the predicate. -/
theorem npSelect_npWhere (p : ℚ → Bool) (l : List ℚ) :
    npSelect l (npWhere p l) = l.filter p := by
  induction l with
  | nil => rfl
  | cons a t ih =>
    rw [npWhere_cons, List.filter_cons]
    unfold npSelect
    rw [List.filterMap_append]
    have h2 : List.filterMap (fun i => (a :: t)[i]?) ((npWhere p t).map Nat.succ) =
        npSelect t (npWhere p t) := npSelect_map_succ a t (npWhere p t)
    cases hpa : p a <;>
      simp only [List.filterMap_nil, List.nil_append, h2, ih, List.filterMap_cons] <;>
      simp

theorem npSelect_append (l : List ℚ) (i1 i2 : List ℕ) :
    npSelect l (i1 ++ i2) = npSelect l i1 ++ npSelect l i2 := by
  unfold npSelect
  exact List.filterMap_append ..

/-- Selecting from a second, equally long array at the indices `np.where`
computed on the first array keeps exactly the entries of the second array
paired with first-array entries satisfying the predicate. -/
theorem npSelect_npWhere_zip (p : ℚ → Bool) (wl fl : List ℚ)
    (hlen : wl.length = fl.length) :
    npSelect fl (npWhere p wl) =
      ((wl.zip fl).filter fun q => p q.1).map Prod.snd := by
  induction wl generalizing fl with
  | nil => simp [npWhere, npSelect]
  | cons a wt ih =>
    cases fl with
    | nil => simp at hlen
    | cons b ft =>
      rw [npWhere_cons, npSelect_append, npSelect_map_succ]
      have hlen' : wt.length = ft.length := by simpa using hlen
      rw [ih ft hlen', List.zip_cons_cons, List.filter_cons]
      by_cases hpa : p a = true <;> simp [npSelect, hpa]

/-- Zeroing the entries at the indices `np.where` returns is exactly the
pointwise remap `v ↦ if p v then 0 else v`. -/
theorem npSetZero_npWhere (p : ℚ → Bool) (l : List ℚ) :
    npSetZero l (npWhere p l) = l.map fun v => if p v then 0 else v := by
  apply List.ext_getElem
  · simp [npSetZero]
  · intro i h1 h2
    have hi : i < l.length := by simpa [npSetZero] using h1
    have hmem : i ∈ npWhere p l ↔ p l[i] = true := by
      simp [npWhere, List.mem_filter, List.mem_range, hi, List.getD_eq_getElem l 0 hi]
    simp only [npSetZero, List.getElem_map, List.getElem_range,
      List.getD_eq_getElem l 0 hi]
    by_cases hp : p l[i] = true
    · simp [hmem, hp]
    · simp [hmem, hp]

/-! ### LRS arm stitching (`FourFS.combine_spectra`, lines 447–464)

In LRS mode the three arms overlap; the code keeps the blue-arm pixels
with wavelength ≤ 5327.7, the green-arm pixels strictly above 5327.7 and
≤ 7031.7, and the red-arm pixels strictly above 7031.7, then concatenates
blue, green, red. -/

/-- First LRS cutover wavelength, 5327.7 Å. -/
def lrsCut1 : ℚ := 53277 / 10

/-- Second LRS cutover wavelength, 7031.7 Å. -/
def lrsCut2 : ℚ := 70317 / 10

/-- The wavelength window band `b` (0 = blue, 1 = green, 2 = red) keeps in
LRS mode. -/
def lrsBandPred (b : ℕ) (w : ℚ) : Bool :=
  match b with
  | 0 => decide (w ≤ lrsCut1)
  | 1 => decide (lrsCut1 < w) && decide (w ≤ lrsCut2)
  | _ => decide (lrsCut2 < w)

/-- LRS truncation of a per-band array `arr`: `np.where` is evaluated on
the band's wavelength array `wl` and the resulting indices select from
`arr` (lines 450–458). -/
def lrsTruncate (wl arr : List ℚ) (b : ℕ) : List ℚ :=
  npSelect arr (npWhere (lrsBandPred b) wl)

/-- The stitched wavelength raster in LRS mode: truncated blue, green and
red wavelength arrays concatenated in that order (lines 455, 461). -/
def stitchWavelengthsLRS (wb wg wr : List ℚ) : List ℚ :=
  lrsTruncate wb wb 0 ++ lrsTruncate wg wg 1 ++ lrsTruncate wr wr 2

/-- The stitching of any per-band data array (flux, fluence, SNR) in LRS
mode: each band's array is cut at the indices computed from that band's
wavelengths, then the three bands are concatenated (lines 456–464). -/
def stitchArraysLRS (wb fb wg fg wr fr : List ℚ) : List ℚ :=
  lrsTruncate wb fb 0 ++ lrsTruncate wg fg 1 ++ lrsTruncate wr fr 2

/-- C1: in LRS mode the stitched output wavelength raster consists of
exactly the blue pixels with wavelength ≤ 5327.7, the green pixels in
(5327.7, 7031.7], and the red pixels above 7031.7, concatenated
blue→green→red; and if each arm's wavelengths are sorted ascending the
output is monotonically increasing. -/
theorem lrs_stitch_correct (wb wg wr : List ℚ)
    (hb : wb.Sorted (· ≤ ·)) (hg : wg.Sorted (· ≤ ·)) (hr : wr.Sorted (· ≤ ·)) :
    stitchWavelengthsLRS wb wg wr =
      wb.filter (fun w => decide (w ≤ lrsCut1)) ++
      wg.filter (fun w => decide (lrsCut1 < w) && decide (w ≤ lrsCut2)) ++
      wr.filter (fun w => decide (lrsCut2 < w)) ∧
    (stitchWavelengthsLRS wb wg wr).Sorted (· ≤ ·) ∧
    ∀ fb fg fr : List ℚ, wb.length = fb.length → wg.length = fg.length →
      wr.length = fr.length →
      stitchArraysLRS wb fb wg fg wr fr =
        (((wb.zip fb).filter fun q => decide (q.1 ≤ lrsCut1)).map Prod.snd) ++
        (((wg.zip fg).filter fun q =>
          decide (lrsCut1 < q.1) && decide (q.1 ≤ lrsCut2)).map Prod.snd) ++
        (((wr.zip fr).filter fun q => decide (lrsCut2 < q.1)).map Prod.snd) := by
  have heq : stitchWavelengthsLRS wb wg wr =
      wb.filter (fun w => decide (w ≤ lrsCut1)) ++
      wg.filter (fun w => decide (lrsCut1 < w) && decide (w ≤ lrsCut2)) ++
      wr.filter (fun w => decide (lrsCut2 < w)) := by
    unfold stitchWavelengthsLRS lrsTruncate
    rw [npSelect_npWhere, npSelect_npWhere, npSelect_npWhere]
    rfl
  refine ⟨heq, ?_, ?_⟩
  case refine_2 =>
    intro fb fg fr hb1 hg1 hr1
    unfold stitchArraysLRS lrsTruncate
    rw [npSelect_npWhere_zip _ _ _ hb1, npSelect_npWhere_zip _ _ _ hg1,
      npSelect_npWhere_zip _ _ _ hr1]
    rfl
  rw [heq]
  refine List.pairwise_append.mpr
    ⟨List.pairwise_append.mpr ⟨hb.filter _, hg.filter _, ?_⟩, hr.filter _, ?_⟩
  · intro a ha c hc
    have ha1 : a ≤ lrsCut1 := by
      have := (List.mem_filter.mp ha).2
      simpa using this
    have hc1 : lrsCut1 < c := by
      have := (List.mem_filter.mp hc).2
      simp at this
      exact this.1
    exact le_of_lt (lt_of_le_of_lt ha1 hc1)
  · intro a ha c hc
    have hc2 : lrsCut2 < c := by
      have := (List.mem_filter.mp hc).2
      simpa using this
    rcases List.mem_append.mp ha with h | h
    · have ha1 : a ≤ lrsCut1 := by
        have := (List.mem_filter.mp h).2
        simpa using this
      have : lrsCut1 ≤ lrsCut2 := by norm_num [lrsCut1, lrsCut2]
      exact le_of_lt (lt_of_le_of_lt (ha1.trans this) hc2)
    · have ha2 : a ≤ lrsCut2 := by
        have := (List.mem_filter.mp h).2
        simp at this
        exact this.2
      exact le_of_lt (lt_of_le_of_lt ha2 hc2)

/-- Witness for C1 at a concrete overlapping three-arm configuration. -/
theorem lrs_stitch_correct_witness :
    stitchWavelengthsLRS [5000, 5400] [5300, 6000, 7100] [7000, 7500] =
      List.filter (fun w => decide (w ≤ lrsCut1)) [5000, 5400] ++
      List.filter (fun w => decide (lrsCut1 < w) && decide (w ≤ lrsCut2))
        [5300, 6000, 7100] ++
      List.filter (fun w => decide (lrsCut2 < w)) [7000, 7500] ∧
    (stitchWavelengthsLRS [5000, 5400] [5300, 6000, 7100] [7000, 7500]).Sorted
      (· ≤ ·) ∧
    stitchArraysLRS [5000, 5400] [1, 2] [5300, 6000, 7100] [3, 4, 5]
        [7000, 7500] [6, 7] =
      ((([5000, 5400].zip [1, 2]).filter fun q : ℚ × ℚ =>
        decide (q.1 ≤ lrsCut1)).map Prod.snd) ++
      ((([5300, 6000, 7100].zip [3, 4, 5]).filter fun q : ℚ × ℚ =>
        decide (lrsCut1 < q.1) && decide (q.1 ≤ lrsCut2)).map Prod.snd) ++
      ((([7000, 7500].zip [6, 7]).filter fun q : ℚ × ℚ =>
        decide (lrsCut2 < q.1)).map Prod.snd) :=
  have h := lrs_stitch_correct [5000, 5400] [5300, 6000, 7100] [7000, 7500]
    (by decide) (by decide) (by decide)
  ⟨h.1, h.2.1, h.2.2 [1, 2] [3, 4, 5] [6, 7] rfl rfl rfl⟩

/-! ### Bad-pixel remediation (`FourFS.combine_spectra`, lines 499–502) -/

/-- The bad-pixel condition of line 502: raw continuum-normalised value
strictly above 2.0 or at most 0.0. -/
def badPixel (v : ℚ) : Bool :=
  decide (2 < v) || decide (v ≤ 0)

/-- Bad-pixel remediation (lines 501–502):
`normalised[np.where((normalised > 2.0) | (normalised <= 0.0))[0]] = 0`. -/
def remediateBadPixels (l : List ℚ) : List ℚ :=
  npSetZero l (npWhere badPixel l)

/-- C3: remediation resets exactly the pixels whose raw value is > 2.0 or
≤ 0.0 to 0 and leaves every other pixel unchanged. -/
theorem remediate_bad_pixels_pointwise (l : List ℚ) :
    remediateBadPixels l = l.map fun v => if 2 < v ∨ v ≤ 0 then 0 else v := by
  rw [remediateBadPixels, npSetZero_npWhere]
  congr 1
  funext v
  simp only [badPixel, Bool.or_eq_true, decide_eq_true_eq]

/-! ### Continuum recovery (`FourFS.combine_spectra`, lines 471–497)

The continuum-only outputs are truncated with the same LRS band windows
(indices computed on the continuum wavelength arrays), each arm's
continuum fluence is rescaled by `max(fluence)/max(fluence_c)` for the
arms whose truncated signal fluence is non-empty, the rescaled arms are
concatenated, and the continuum-normalised flux is the pixelwise quotient
of the stitched flux by the stitched continuum. -/

/-- `max` of a Python list, nonempty case; 0 is a junk default for the
empty list (Python raises there, and no claim concerns that case). -/
def listMax : List ℚ → ℚ
  | [] => 0
  | a :: t => t.foldl max a

/-- One arm's rescaled continuum fluence (line 492):
`fluence_c * max(fluence) / max(fluence_c)` elementwise. -/
def rescaleContinuum (fluence fluence_c : List ℚ) : List ℚ :=
  fluence_c.map fun v => v * listMax fluence / listMax fluence_c

/-- Lines 492–494: concatenate the rescaled continuum fluences of the arms
whose truncated signal fluence is non-empty. -/
def stitchContinuum (fluences fluences_c : List (List ℚ)) : List ℚ :=
  (((fluences.zip fluences_c).filter fun p => decide (0 < p.1.length)).map
    fun p => rescaleContinuum p.1 p.2).flatten

/-- Per-arm LRS truncation of the fluence arrays, code-shaped
(lines 450–457 for the signal, 480–487 for the continuum): arm `b`'s
fluence selected at the `np.where` indices computed on arm `b`'s
wavelength array.  Each arm is a (wavelengths, fluence) pair. -/
def truncatedFluences (arms : List (List ℚ × List ℚ)) : List (List ℚ) :=
  arms.mapIdx fun b wf => npSelect wf.2 (npWhere (lrsBandPred b) wf.1)

/-- The stitched continuum exactly as the code computes it in LRS mode. -/
def codeStitchedContinuumLRS (arms arms_c : List (List ℚ × List ℚ)) : List ℚ :=
  stitchContinuum (truncatedFluences arms) (truncatedFluences arms_c)

/-- Continuum normalisation before remediation (line 497):
`fluxes_final / fluxes_final_c` pixelwise. -/
def continuumNormalise (fluxes_final fluxes_final_c : List ℚ) : List ℚ :=
  List.zipWith (· / ·) fluxes_final fluxes_final_c

/-- Arm truncation phrased as the spec phrases it: keep the
wavelength–fluence pairs whose wavelength lies in band `b`'s window. -/
def specTruncFluence (b : ℕ) (wf : List ℚ × List ℚ) : List ℚ :=
  ((wf.1.zip wf.2).filter fun q => lrsBandPred b q.1).map Prod.snd

/-- The stitched continuum as the spec describes it: for each arm with a
non-empty truncated signal fluence, the truncated continuum fluence
multiplied by `max(signal fluence) / max(continuum fluence)`, arms
concatenated in order. -/
def specStitchedContinuum (arms arms_c : List (List ℚ × List ℚ)) : List ℚ :=
  ((((arms.mapIdx specTruncFluence).zip (arms_c.mapIdx specTruncFluence)).filter
    fun p => decide (0 < p.1.length)).map
    fun p => p.2.map fun v => v * (listMax p.1 / listMax p.2)).flatten

/-- C2: the code's stitched continuum is exactly the spec's — per arm with
non-empty truncated signal fluence, the truncated continuum fluence scaled
by `max(signal)/max(continuum)`, concatenated — and the
continuum-normalised output (before bad-pixel remediation) is the stitched
signal flux divided pixelwise by this stitched continuum.  Each arm is a
(wavelength array, fluence array) pair of equal lengths. -/
theorem continuum_stitch_correct (a0 a1 a2 c0 c1 c2 : List ℚ × List ℚ)
    (h0 : a0.1.length = a0.2.length) (h1 : a1.1.length = a1.2.length)
    (h2 : a2.1.length = a2.2.length) (hc0 : c0.1.length = c0.2.length)
    (hc1 : c1.1.length = c1.2.length) (hc2 : c2.1.length = c2.2.length) :
    codeStitchedContinuumLRS [a0, a1, a2] [c0, c1, c2] =
      specStitchedContinuum [a0, a1, a2] [c0, c1, c2] ∧
    ∀ fluxes_final : List ℚ,
      continuumNormalise fluxes_final
          (codeStitchedContinuumLRS [a0, a1, a2] [c0, c1, c2]) =
        List.zipWith (· / ·) fluxes_final
          (specStitchedContinuum [a0, a1, a2] [c0, c1, c2]) := by
  have key : codeStitchedContinuumLRS [a0, a1, a2] [c0, c1, c2] =
      specStitchedContinuum [a0, a1, a2] [c0, c1, c2] := by
    unfold codeStitchedContinuumLRS truncatedFluences specStitchedContinuum
      stitchContinuum
    simp only [List.mapIdx_cons, List.mapIdx_nil]
    rw [npSelect_npWhere_zip _ _ _ h0, npSelect_npWhere_zip _ _ _ h1,
      npSelect_npWhere_zip _ _ _ h2, npSelect_npWhere_zip _ _ _ hc0,
      npSelect_npWhere_zip _ _ _ hc1, npSelect_npWhere_zip _ _ _ hc2]
    have hfun : (fun p : List ℚ × List ℚ => rescaleContinuum p.1 p.2) =
        fun p : List ℚ × List ℚ =>
          p.2.map fun v => v * (listMax p.1 / listMax p.2) := by
      funext p
      unfold rescaleContinuum
      congr 1
      funext v
      rw [mul_div_assoc]
    rw [hfun]
    simp only [specTruncFluence]
  exact ⟨key, fun fluxes_final => by rw [continuumNormalise, key]⟩

/-- Witness for C2 at concrete single-pixel arms. -/
theorem continuum_stitch_correct_witness :
    (codeStitchedContinuumLRS [([5000], [2]), ([6000], [3]), ([7100], [4])]
        [([5000], [1]), ([6000], [1]), ([7100], [2])] =
      specStitchedContinuum [([5000], [2]), ([6000], [3]), ([7100], [4])]
        [([5000], [1]), ([6000], [1]), ([7100], [2])]) ∧
    ∀ fluxes_final : List ℚ,
      continuumNormalise fluxes_final
          (codeStitchedContinuumLRS [([5000], [2]), ([6000], [3]), ([7100], [4])]
            [([5000], [1]), ([6000], [1]), ([7100], [2])]) =
        List.zipWith (· / ·) fluxes_final
          (specStitchedContinuum [([5000], [2]), ([6000], [3]), ([7100], [4])]
            [([5000], [1]), ([6000], [1]), ([7100], [2])]) :=
  continuum_stitch_correct ([5000], [2]) ([6000], [3]) ([7100], [4])
    ([5000], [1]) ([6000], [1]) ([7100], [2]) rfl rfl rfl rfl rfl rfl

/-! ### Run summary parsing (`FourFS.combine_spectra`, lines 396–413)

A summary line is split into whitespace-separated fields.  We abstract a
field by how Python's `int()` and `float()` conversions treat it and by
whether it is the literal string "nan". -/

/-- An exposure-time value: either the float nan or a number. -/
inductive ExpVal
  | nan
  | val (q : ℚ)
deriving DecidableEq, Repr

/-- Abstraction of one whitespace-separated field of a summary line. -/
inductive Field
  /-- A field that parses as an integer (hence also as a float). -/
  | intField (n : ℤ)
  /-- A field that parses as a float but not as an integer. -/
  | floatField (q : ℚ)
  /-- The literal string "nan": no integer parse; float parse gives nan. -/
  | nanField
  /-- Another float spelling of nan (e.g. "NaN"): float parse gives nan
  but the field is not the literal string "nan". -/
  | nanLikeField
  /-- A field that parses neither as an integer nor as a float. -/
  | junkField
deriving DecidableEq, Repr

/-- Python `int(field)`; `none` models the `ValueError`. -/
def intParse : Field → Option ℤ
  | .intField n => some n
  | _ => none

/-- Python `float(field)`; `none` models the `ValueError`. -/
def floatParse : Field → Option ExpVal
  | .intField n => some (.val n)
  | .floatField q => some (.val q)
  | .nanField => some .nan
  | .nanLikeField => some .nan
  | .junkField => none

/-- The comparison `words[5] == "nan"`. -/
def isNanString : Field → Bool
  | .nanField => true
  | _ => false

/-- Processing of one summary line (lines 398–413): fewer than six fields
or a first field that does not parse as an integer skips the line
(`.ok none`); a sixth field "nan" records nan; otherwise the sixth field
is parsed as a float (an unparseable sixth field raises, modelled as
`.error`). -/
def processSummaryLine (words : List Field) :
    Except Unit (Option (ℤ × ExpVal)) :=
  if words.length < 6 then .ok none
  else
    match intParse (words.getD 0 .junkField) with
    | none => .ok none
    | some n =>
      if isNanString (words.getD 5 .junkField) then .ok (some (n, .nan))
      else
        match floatParse (words.getD 5 .junkField) with
        | none => .error ()
        | some v => .ok (some (n, v))

/-- The whole summary parse: the recorded (run number, exposure time)
entries, in line order. -/
def parseSummary : List (List Field) → Except Unit (List (ℤ × ExpVal))
  | [] => .ok []
  | line :: rest =>
    match processSummaryLine line with
    | .error e => .error e
    | .ok none => parseSummary rest
    | .ok (some entry) =>
      match parseSummary rest with
      | .error e => .error e
      | .ok entries => .ok (entry :: entries)

/-- `exposure_times.get(str(run_counter), np.nan)`: Python dict insertion
overwrites, so the lookup finds the last entry recorded for the key, and
nan when there is none. -/
def exposureLookup (entries : List (ℤ × ExpVal)) (k : ℤ) : ExpVal :=
  match entries.reverse.find? fun p => p.1 == k with
  | some p => p.2
  | none => .nan

/-- C5: summary lines with fewer than six fields or a non-integer first
field are skipped without error — both for the single line and inside the
whole parse — while a kept line records nan for a sixth field "nan" and
the parsed float otherwise. -/
theorem summary_line_handling (words : List Field) :
    (words.length < 6 → processSummaryLine words = .ok none) ∧
    (intParse (words.getD 0 .junkField) = none →
      processSummaryLine words = .ok none) ∧
    (processSummaryLine words = .ok none →
      ∀ rest, parseSummary (words :: rest) = parseSummary rest) ∧
    (∀ n, 6 ≤ words.length → intParse (words.getD 0 .junkField) = some n →
      isNanString (words.getD 5 .junkField) = true →
      processSummaryLine words = .ok (some (n, .nan))) ∧
    (∀ n v, 6 ≤ words.length → intParse (words.getD 0 .junkField) = some n →
      isNanString (words.getD 5 .junkField) = false →
      floatParse (words.getD 5 .junkField) = some v →
      processSummaryLine words = .ok (some (n, v))) := by
  refine ⟨?_, ?_, ?_, ?_, ?_⟩
  · intro h
    simp [processSummaryLine, h]
  · intro h
    unfold processSummaryLine
    rw [h]
    split <;> rfl
  · intro h rest
    rw [parseSummary, h]
  · intro n hlen hint hnan
    have hlt : ¬ words.length < 6 := by omega
    simp only [List.getD_eq_getElem?_getD] at hnan
    unfold processSummaryLine
    rw [if_neg hlt, hint]
    simp [hnan]
  · intro n v hlen hint hnan hfloat
    have hlt : ¬ words.length < 6 := by omega
    simp only [List.getD_eq_getElem?_getD] at hnan hfloat
    unfold processSummaryLine
    rw [if_neg hlt, hint]
    simp [hnan, hfloat]

/-- Witness for C5: a five-field line and a junk-first-field line are
skipped; two well-formed six-field lines record nan and 120.5. -/
theorem summary_line_handling_witness :
    processSummaryLine [.intField 1, .junkField, .junkField, .junkField,
      .floatField 5] = .ok none ∧
    processSummaryLine [.junkField, .junkField, .junkField, .junkField,
      .junkField, .floatField 5] = .ok none ∧
    parseSummary ([.junkField, .junkField, .junkField, .junkField,
      .junkField, .floatField 5] :: []) = parseSummary [] ∧
    processSummaryLine [.intField 3, .junkField, .junkField, .junkField,
      .junkField, .nanField] = .ok (some (3, .nan)) ∧
    processSummaryLine [.intField 3, .junkField, .junkField, .junkField,
      .junkField, .floatField (241/2)] = .ok (some (3, .val (241/2))) := by
  refine ⟨(summary_line_handling [.intField 1, .junkField, .junkField, .junkField,
      .floatField 5]).1 (by decide),
    (summary_line_handling [.junkField, .junkField, .junkField, .junkField,
      .junkField, .floatField 5]).2.1 rfl, ?_,
    (summary_line_handling [.intField 3, .junkField, .junkField, .junkField,
      .junkField, .nanField]).2.2.2.1 3 (by decide) rfl rfl,
    (summary_line_handling [.intField 3, .junkField, .junkField, .junkField,
      .junkField, .floatField (241/2)]).2.2.2.2 3 (.val (241/2)) (by decide)
      rfl rfl rfl⟩
  exact (summary_line_handling [.junkField, .junkField, .junkField, .junkField,
    .junkField, .floatField 5]).2.2.1
    ((summary_line_handling [.junkField, .junkField, .junkField, .junkField,
      .junkField, .floatField 5]).2.1 rfl) []

/-! ### The combiner loop (`FourFS.combine_spectra`, lines 415–539)

Per-band FITS tables are modelled as records of their columns; the output
directory is an association list from abstract file names to tables.
`fits.open` on a missing file raises, modelled with `Except`. -/

/-- The columns of one per-band 4FS output table (`fits_data[2].data`). -/
structure ArmData where
  lam : List ℚ
  realisation : List ℚ
  fluence : List ℚ
  sky : List ℚ
  snr : List ℚ
deriving DecidableEq, Repr

/-- The all-empty placeholder used for a band with an empty SNR definition
(lines 432–438). -/
def emptyArmData : ArmData := ⟨[], [], [], [], []⟩

/-- Abstract name of a 4FS output file: the signal output for a
(template, SNR, band) triple or the continuum-only output for a
(template, band) pair. -/
inductive FileKey
  | signal (templateId : ℕ) (snr : ℚ) (band : ℕ)
  | continuum (templateId : ℕ) (band : ℕ)
deriving DecidableEq, Repr

/-- The simulator output directory: a mapping from file names to table
contents. -/
abbrev FileSystem := List (FileKey × ArmData)

def fsLookup (fs : FileSystem) (k : FileKey) : Option ArmData :=
  (fs.find? fun p => p.1 == k).map Prod.snd

/-- The metadata attached to an output spectrum (lines 508–517). -/
structure MetaOut where
  continuum_normalised : ℕ
  snr : ℚ
  snr_per_pixel : Bool
  magnitude : ℚ
  exposure : ExpVal
  snr_definition : String
deriving DecidableEq, Repr

/-- An output `Spectrum` of the combiner (lines 520–530). -/
structure SpectrumOut where
  wavelengths : List ℚ
  values : List ℚ
  value_errors : List ℚ
  meta : MetaOut
deriving DecidableEq, Repr

/-- Configuration of one `combine_spectra` call: instrument mode, the
per-band SNR definitions already reversed to blue/green/red order
(line 393), the target magnitude and the SNR-per-pixel flag. -/
structure CombineConfig where
  isLRS : Bool
  snrDefs : List String
  magnitude : ℚ
  snrPerPixel : Bool

/-- Loading of one band's signal output (lines 425–439): a band whose SNR
definition is empty contributes the all-empty placeholder; otherwise the
file is opened, and a missing file raises. -/
def loadBand (fs : FileSystem) (snrDefs : List String) (i : ℕ) (snr : ℚ)
    (b : ℕ) : Except Unit ArmData :=
  if 0 < (snrDefs.getD b "").length then
    match fsLookup fs (.signal i snr b) with
    | some data => .ok data
    | none => .error ()
  else .ok emptyArmData

/-- The `snr_definition` metadata value (lines 514–517): the shared name
if the three bands use one definition, else the comma-joined list. -/
def snrDefinitionMeta (snrDefs : List String) : String :=
  if snrDefs.getD 0 "" = snrDefs.getD 1 "" ∧ snrDefs.getD 1 "" = snrDefs.getD 2 ""
  then snrDefs.getD 0 ""
  else snrDefs.getD 0 "" ++ "," ++ snrDefs.getD 1 "" ++ "," ++ snrDefs.getD 2 ""

/-- In LRS mode truncate `arr` to band `b`'s window using band `b`'s
wavelengths `wl`; in HRS mode leave it unchanged (lines 449–458). -/
def maybeTruncate (isLRS : Bool) (wl arr : List ℚ) (b : ℕ) : List ℚ :=
  if isLRS then lrsTruncate wl arr b else arr

/-- Processing of one (template, SNR) pair of the combiner loop
(lines 423–537), at run-counter value `run_counter`. -/
def processPair (cfg : CombineConfig) (fs : FileSystem)
    (expTimes : List (ℤ × ExpVal)) (i : ℕ) (snr : ℚ) (run_counter : ℕ) :
    Except Unit (SpectrumOut × Option SpectrumOut) :=
  match loadBand fs cfg.snrDefs i snr 0, loadBand fs cfg.snrDefs i snr 1,
      loadBand fs cfg.snrDefs i snr 2 with
  | .ok d0, .ok d1, .ok d2 =>
    let flux := fun d : ArmData => List.zipWith (· - ·) d.realisation d.sky
    let wavelengths_final :=
      maybeTruncate cfg.isLRS d0.lam d0.lam 0 ++
      maybeTruncate cfg.isLRS d1.lam d1.lam 1 ++
      maybeTruncate cfg.isLRS d2.lam d2.lam 2
    let fluxes_final :=
      maybeTruncate cfg.isLRS d0.lam (flux d0) 0 ++
      maybeTruncate cfg.isLRS d1.lam (flux d1) 1 ++
      maybeTruncate cfg.isLRS d2.lam (flux d2) 2
    let snrs_final :=
      maybeTruncate cfg.isLRS d0.lam d0.snr 0 ++
      maybeTruncate cfg.isLRS d1.lam d1.snr 1 ++
      maybeTruncate cfg.isLRS d2.lam d2.snr 2
    let metaFlux : MetaOut :=
      { continuum_normalised := 0
        snr := snr
        snr_per_pixel := cfg.snrPerPixel
        magnitude := cfg.magnitude
        exposure := exposureLookup expTimes run_counter
        snr_definition := snrDefinitionMeta cfg.snrDefs }
    let spectrum : SpectrumOut :=
      { wavelengths := wavelengths_final
        values := fluxes_final
        value_errors := List.zipWith (· / ·) fluxes_final snrs_final
        meta := metaFlux }
    if (fsLookup fs (.continuum i 0)).isSome then
      match fsLookup fs (.continuum i 0), fsLookup fs (.continuum i 1),
          fsLookup fs (.continuum i 2) with
      | some c0, some c1, some c2 =>
        let fluxes_final_c := stitchContinuum
          [maybeTruncate cfg.isLRS d0.lam d0.fluence 0,
           maybeTruncate cfg.isLRS d1.lam d1.fluence 1,
           maybeTruncate cfg.isLRS d2.lam d2.fluence 2]
          [maybeTruncate cfg.isLRS c0.lam c0.fluence 0,
           maybeTruncate cfg.isLRS c1.lam c1.fluence 1,
           maybeTruncate cfg.isLRS c2.lam c2.fluence 2]
        let normalised :=
          remediateBadPixels (continuumNormalise fluxes_final fluxes_final_c)
        let spectrumC : SpectrumOut :=
          { wavelengths := wavelengths_final
            values := normalised
            value_errors := List.zipWith (· / ·) normalised snrs_final
            meta := { metaFlux with continuum_normalised := 1 } }
        .ok (spectrum, some spectrumC)
      | _, _, _ => .error ()
    else .ok (spectrum, none)
  | _, _, _ => .error ()

/-- The inner loop over requested SNR values for one template (lines
420–537): the run counter is incremented at the top of each iteration. -/
def combineSnrsFrom (cfg : CombineConfig) (fs : FileSystem)
    (expTimes : List (ℤ × ExpVal)) (i : ℕ) (rc : ℕ) :
    List ℚ → Except Unit (List (ℕ × ℚ × (SpectrumOut × Option SpectrumOut)))
  | [] => .ok []
  | snr :: rest =>
    match processPair cfg fs expTimes i snr (rc + 1) with
    | .error e => .error e
    | .ok res =>
      match combineSnrsFrom cfg fs expTimes i (rc + 1) rest with
      | .error e => .error e
      | .ok out => .ok ((i, snr, res) :: out)

/-- The outer loop over template numbers (lines 417–418); the run counter
is shared across templates. -/
def combineTemplatesFrom (cfg : CombineConfig) (fs : FileSystem)
    (expTimes : List (ℤ × ExpVal)) (snrs : List ℚ) (rc : ℕ) :
    List ℕ → Except Unit (List (ℕ × ℚ × (SpectrumOut × Option SpectrumOut)))
  | [] => .ok []
  | i :: rest =>
    match combineSnrsFrom cfg fs expTimes i rc snrs with
    | .error e => .error e
    | .ok out1 =>
      match combineTemplatesFrom cfg fs expTimes snrs (rc + snrs.length) rest with
      | .error e => .error e
      | .ok out2 => .ok (out1 ++ out2)

/-- `FourFS.combine_spectra` flattened into (template, SNR, outputs)
entries in iteration order; the run counter starts at 0 (line 417). -/
def combine_spectra (cfg : CombineConfig) (fs : FileSystem)
    (expTimes : List (ℤ × ExpVal)) (templates : List ℕ) (snrs : List ℚ) :
    Except Unit (List (ℕ × ℚ × (SpectrumOut × Option SpectrumOut))) :=
  combineTemplatesFrom cfg fs expTimes snrs 0 templates

theorem processPair_exposure (cfg : CombineConfig) (fs : FileSystem)
    (expTimes : List (ℤ × ExpVal)) (i : ℕ) (snr : ℚ) (rc : ℕ)
    (res : SpectrumOut × Option SpectrumOut)
    (h : processPair cfg fs expTimes i snr rc = .ok res) :
    res.1.meta.exposure = exposureLookup expTimes rc ∧
    ∀ s, res.2 = some s → s.meta.exposure = exposureLookup expTimes rc := by
  unfold processPair at h
  split at h
  · split at h
    · split at h
      · injection h with h2
        subst h2
        exact ⟨rfl, fun s hs => by cases hs; rfl⟩
      · exact Except.noConfusion h
    · injection h with h2
      subst h2
      exact ⟨rfl, fun s hs => by cases hs⟩
  · exact Except.noConfusion h

theorem combineSnrsFrom_spec (cfg : CombineConfig) (fs : FileSystem)
    (expTimes : List (ℤ × ExpVal)) (i : ℕ) (snrs : List ℚ) :
    ∀ (rc : ℕ) out, combineSnrsFrom cfg fs expTimes i rc snrs = .ok out →
      out.length = snrs.length ∧
      ∀ k entry, out[k]? = some entry →
        entry.1 = i ∧ snrs[k]? = some entry.2.1 ∧
        entry.2.2.1.meta.exposure = exposureLookup expTimes (rc + k + 1 : ℕ) ∧
        ∀ s, entry.2.2.2 = some s →
          s.meta.exposure = exposureLookup expTimes (rc + k + 1 : ℕ) := by
  induction snrs with
  | nil =>
    intro rc out h
    injection h with h2
    subst h2
    simp
  | cons snr rest ih =>
    intro rc out h
    unfold combineSnrsFrom at h
    split at h
    · exact Except.noConfusion h
    case _ res hres =>
      split at h
      · exact Except.noConfusion h
      case _ out1 hout1 =>
        injection h with h2
        subst h2
        have hp := processPair_exposure cfg fs expTimes i snr (rc + 1) res hres
        have hrec := ih (rc + 1) out1 hout1
        refine ⟨by simp [hrec.1], ?_⟩
        intro k entry hk
        cases k with
        | zero =>
          simp only [List.getElem?_cons_zero, Option.some.injEq] at hk
          subst hk
          exact ⟨rfl, by simp, hp.1, hp.2⟩
        | succ k' =>
          simp only [List.getElem?_cons_succ] at hk
          have hr := hrec.2 k' entry hk
          have harith : rc + 1 + k' + 1 = rc + (k' + 1) + 1 := by omega
          rw [harith] at hr
          exact ⟨hr.1, by simpa using hr.2.1, hr.2.2.1, hr.2.2.2⟩

theorem combineTemplatesFrom_spec (cfg : CombineConfig) (fs : FileSystem)
    (expTimes : List (ℤ × ExpVal)) (snrs : List ℚ) :
    ∀ (templates : List ℕ) (rc : ℕ) out,
      combineTemplatesFrom cfg fs expTimes snrs rc templates = .ok out →
      ∀ ti si entry, si < snrs.length →
        out[ti * snrs.length + si]? = some entry →
        templates[ti]? = some entry.1 ∧ snrs[si]? = some entry.2.1 ∧
        entry.2.2.1.meta.exposure =
          exposureLookup expTimes (rc + (ti * snrs.length + si) + 1 : ℕ) ∧
        ∀ s, entry.2.2.2 = some s →
          s.meta.exposure =
            exposureLookup expTimes (rc + (ti * snrs.length + si) + 1 : ℕ) := by
  intro templates
  induction templates with
  | nil =>
    intro rc out h ti si entry _ hentry
    injection h with h2
    subst h2
    simp at hentry
  | cons i rest ih =>
    intro rc out h ti si entry hsi hentry
    unfold combineTemplatesFrom at h
    split at h
    · exact Except.noConfusion h
    case _ out1 hout1 =>
      split at h
      · exact Except.noConfusion h
      case _ out2 hout2 =>
        injection h with h2
        subst h2
        have hsnr := combineSnrsFrom_spec cfg fs expTimes i snrs rc out1 hout1
        cases ti with
        | zero =>
          have hlt : 0 * snrs.length + si < out1.length := by
            rw [hsnr.1]; omega
          rw [List.getElem?_append_left hlt] at hentry
          have := hsnr.2 (0 * snrs.length + si) entry hentry
          have hsi0 : 0 * snrs.length + si = si := by omega
          rw [hsi0] at this
          exact ⟨by simp [this.1], this.2.1,
            by simpa [hsi0] using this.2.2.1,
            by simpa [hsi0] using this.2.2.2⟩
        | succ ti' =>
          have hge : out1.length ≤ (ti' + 1) * snrs.length + si := by
            rw [hsnr.1]; nlinarith [Nat.le_add_right (ti' * snrs.length) si]
          rw [List.getElem?_append_right hge] at hentry
          have hidx : (ti' + 1) * snrs.length + si - out1.length =
              ti' * snrs.length + si := by
            rw [hsnr.1]; ring_nf; omega
          rw [hidx] at hentry
          have hr := ih (rc + snrs.length) out2 hout2 ti' si entry hsi hentry
          have harith : rc + snrs.length + (ti' * snrs.length + si) + 1 =
              rc + ((ti' + 1) * snrs.length + si) + 1 := by ring_nf
          rw [harith] at hr
          exact ⟨by simpa using hr.1, hr.2.1, hr.2.2.1, hr.2.2.2⟩

/-- C4: the combiner's run counter is incremented exactly once per
(template, SNR) iteration starting from 0, so the pair at template index
`ti` and SNR index `si` runs at counter value `ti * |snrs| + si + 1`; the
exposure metadata of both output spectra of that pair is the exposure
looked up in the parsed summary under that run number, and is nan when no
summary line has that run number. -/
theorem run_counter_exposure (cfg : CombineConfig) (fs : FileSystem)
    (expTimes : List (ℤ × ExpVal)) (templates : List ℕ) (snrs : List ℚ)
    (out : List (ℕ × ℚ × (SpectrumOut × Option SpectrumOut)))
    (ti si : ℕ) (entry : ℕ × ℚ × (SpectrumOut × Option SpectrumOut))
    (hok : combine_spectra cfg fs expTimes templates snrs = .ok out)
    (hsi : si < snrs.length)
    (hentry : out[ti * snrs.length + si]? = some entry) :
    templates[ti]? = some entry.1 ∧ snrs[si]? = some entry.2.1 ∧
    entry.2.2.1.meta.exposure =
      exposureLookup expTimes (ti * snrs.length + si + 1 : ℕ) ∧
    ∀ s, entry.2.2.2 = some s →
      s.meta.exposure = exposureLookup expTimes (ti * snrs.length + si + 1 : ℕ) := by
  have h := combineTemplatesFrom_spec cfg fs expTimes snrs templates 0 out hok
    ti si entry hsi hentry
  simpa using h

def c4cfg : CombineConfig := ⟨true, ["", "", ""], 14, true⟩

def c4fs : FileSystem :=
  [(.continuum 0 0, emptyArmData), (.continuum 0 1, emptyArmData),
   (.continuum 0 2, emptyArmData)]

def c4exp : List (ℤ × ExpVal) := [(3, .val (241/2))]

def c4spec (c : ℕ) (snr : ℚ) (e : ExpVal) : SpectrumOut :=
  ⟨[], [], [], ⟨c, snr, true, 14, e, ""⟩⟩

def c4entry (snr : ℚ) (e : ExpVal) :
    ℕ × ℚ × (SpectrumOut × Option SpectrumOut) :=
  (0, snr, (c4spec 0 snr e, some (c4spec 1 snr e)))

def c4out : List (ℕ × ℚ × (SpectrumOut × Option SpectrumOut)) :=
  [c4entry 10 .nan, c4entry 20 .nan, c4entry 30 (.val (241/2))]

/-- Witness for C4 at the claim's example: a summary mapping run 3 to
exposure 120.5, one template and three SNRs; the pair at SNR index 2 runs
at counter value 3 and receives 120.5, while runs 1 and 2 find no summary
line and receive nan. -/
theorem run_counter_exposure_witness :
    ([0] : List ℕ)[0]? = some (c4entry 30 (.val (241/2))).1 ∧
    ([10, 20, 30] : List ℚ)[2]? = some (c4entry 30 (.val (241/2))).2.1 ∧
    (c4entry 30 (.val (241/2))).2.2.1.meta.exposure =
      exposureLookup c4exp (0 * ([10, 20, 30] : List ℚ).length + 2 + 1 : ℕ) ∧
    ∀ s, (c4entry 30 (.val (241/2))).2.2.2 = some s →
      s.meta.exposure =
        exposureLookup c4exp (0 * ([10, 20, 30] : List ℚ).length + 2 + 1 : ℕ) :=
  run_counter_exposure c4cfg c4fs c4exp [0] [10, 20, 30] c4out 0 2
    (c4entry 30 (.val (241/2))) rfl (by decide) rfl

/-- C9: when a pair's continuum-only output files are absent while the
per-band signal outputs are present, the pair is still processed without
an exception: the flux-calibrated spectrum is returned and the
continuum-normalised slot is `none`. -/
theorem missing_continuum_not_fatal (cfg : CombineConfig) (fs : FileSystem)
    (expTimes : List (ℤ × ExpVal)) (i : ℕ) (snr : ℚ) (rc : ℕ)
    (d0 d1 d2 : ArmData)
    (h0 : fsLookup fs (.signal i snr 0) = some d0)
    (h1 : fsLookup fs (.signal i snr 1) = some d1)
    (h2 : fsLookup fs (.signal i snr 2) = some d2)
    (hc0 : fsLookup fs (.continuum i 0) = none)
    (hc1 : fsLookup fs (.continuum i 1) = none)
    (hc2 : fsLookup fs (.continuum i 2) = none) :
    (processPair cfg fs expTimes i snr rc).map (fun r => r.2.isNone) =
      .ok true := by
  have l0 : ∃ e, loadBand fs cfg.snrDefs i snr 0 = .ok e := by
    unfold loadBand
    split
    · rw [h0]; exact ⟨d0, rfl⟩
    · exact ⟨emptyArmData, rfl⟩
  have l1 : ∃ e, loadBand fs cfg.snrDefs i snr 1 = .ok e := by
    unfold loadBand
    split
    · rw [h1]; exact ⟨d1, rfl⟩
    · exact ⟨emptyArmData, rfl⟩
  have l2 : ∃ e, loadBand fs cfg.snrDefs i snr 2 = .ok e := by
    unfold loadBand
    split
    · rw [h2]; exact ⟨d2, rfl⟩
    · exact ⟨emptyArmData, rfl⟩
  obtain ⟨e0, he0⟩ := l0
  obtain ⟨e1, he1⟩ := l1
  obtain ⟨e2, he2⟩ := l2
  unfold processPair
  rw [he0, he1, he2]
  simp [hc0, Except.map]

def c9fs : FileSystem :=
  [(.signal 0 10 0, emptyArmData), (.signal 0 10 1, emptyArmData),
   (.signal 0 10 2, emptyArmData)]

/-- Witness for C9: signal outputs present, continuum outputs absent. -/
theorem missing_continuum_not_fatal_witness :
    (processPair c4cfg c9fs [] 0 10 1).map (fun r => r.2.isNone) =
      .ok true :=
  missing_continuum_not_fatal c4cfg c9fs [] 0 10 1
    emptyArmData emptyArmData emptyArmData rfl rfl rfl rfl rfl rfl

/-! ### Template renormalisation
(`FourFS.make_fits_spectral_template`, lines 222–228)

The flux is scaled by `10 ** (-0.4 * (reference_magnitude - magnitude))`,
a real power, so this fragment is modelled over `ℝ`. -/

/-- The magnitude entering the renormalisation (lines 223–226): the
synthetic photometry of the template spectrum, minus the in-band
reddening metadata value when the configuration asks for unreddened
magnitudes.  The photometry computation itself lives in the `Spectrum`
class and is taken as an input here. -/
def computedMagnitude (photometry : ℝ) (magnitude_unreddened : Bool)
    (a_band : ℝ) : ℝ :=
  if magnitude_unreddened then photometry - a_band else photometry

/-- The flux scale factor of line 228:
`pow(10, -0.4 * (reference_magnitude - magnitude))`. -/
noncomputable def scaleFactor (reference_magnitude magnitude : ℝ) : ℝ :=
  (10 : ℝ) ^ (-(0.4 : ℝ) * (reference_magnitude - magnitude))

/-- Line 228: `data *= scale`. -/
noncomputable def renormaliseFlux (flux : List ℝ)
    (reference_magnitude magnitude : ℝ) : List ℝ :=
  flux.map fun v => v * scaleFactor reference_magnitude magnitude

/-- C7: when the computed in-band magnitude (after the optional
unreddening correction) already equals the reference magnitude, the scale
factor is exactly 1 and the emitted flux equals the input flux. -/
theorem renormalise_idempotent (photometry a_band reference_magnitude : ℝ)
    (u : Bool) (flux : List ℝ)
    (h : computedMagnitude photometry u a_band = reference_magnitude) :
    scaleFactor reference_magnitude (computedMagnitude photometry u a_band) = 1 ∧
    renormaliseFlux flux reference_magnitude
      (computedMagnitude photometry u a_band) = flux := by
  have hs : scaleFactor reference_magnitude
      (computedMagnitude photometry u a_band) = 1 := by
    rw [h]
    unfold scaleFactor
    rw [sub_self, mul_zero, Real.rpow_zero]
  refine ⟨hs, ?_⟩
  unfold renormaliseFlux
  rw [hs]
  simp

/-- Witness for C7 at photometry 15, reference magnitude 15, flux [1, 2]. -/
theorem renormalise_idempotent_witness :
    scaleFactor 15 (computedMagnitude 15 false 0) = 1 ∧
    renormaliseFlux [1, 2] 15 (computedMagnitude 15 false 0) = [1, 2] :=
  renormalise_idempotent 15 0 15 false [1, 2] rfl

/-! ### Manifest building (`FourFS.generate_4fs_template_list`,
lines 247–344)

The builder walks the input pairs in order, allocating one template id
per pair from the instance counter, and emits one manifest line per
(SNR definition × SNR) combination plus, when a continuum companion is
present, one continuum-only line. -/

/-- One line of the 4FS template manifest: an exposure request for one
(template, SNR, SNR definition) combination (lines 311–316), or the
per-template continuum-only request (lines 320–323). -/
inductive ManifestLine
  | snrLine (templateId : ℕ) (snr : ℚ) (snrDefinition : String)
      (referenceMagnitude magnitude : ℚ)
  | continuumLine (templateId : ℕ) (referenceMagnitude magnitude : ℚ)
deriving DecidableEq, Repr

/-- The builder's configuration: the iteration order of
`distinct_snr_definitions`, the SNR list and the two magnitudes. -/
structure BuilderConfig where
  snrDefinitions : List String
  snrList : List ℚ
  referenceMagnitude : ℚ
  magnitude : ℚ

/-- One input pair of the builder; only the presence of the
continuum-normalised companion influences the manifest lines. -/
structure TemplateInput where
  hasContinuum : Bool

/-- The manifest lines one template contributes (lines 308–323). -/
def templateLines (cfg : BuilderConfig) (tid : ℕ) (inp : TemplateInput) :
    List ManifestLine :=
  (cfg.snrDefinitions.flatMap fun d => cfg.snrList.map fun snr =>
    ManifestLine.snrLine tid snr d cfg.referenceMagnitude cfg.magnitude) ++
  (if inp.hasContinuum then
    [ManifestLine.continuumLine tid cfg.referenceMagnitude cfg.magnitude]
  else [])

/-- The loop of lines 283–333, threading the instance template counter;
returns the manifest lines and the counter after the loop. -/
def buildLines (cfg : BuilderConfig) (counter : ℕ) :
    List TemplateInput → List ManifestLine × ℕ
  | [] => ([], counter)
  | inp :: rest =>
    let rec_result := buildLines cfg (counter + 1) rest
    (templateLines cfg counter inp ++ rec_result.1, rec_result.2)

/-- `generate_4fs_template_list`: the manifest lines, the returned
`template_numbers = list(range(first, last + 1))` (lines 340–344), and
the new counter value. -/
def generate_4fs_template_list (cfg : BuilderConfig) (counter : ℕ)
    (inputs : List TemplateInput) : List ManifestLine × List ℕ × ℕ :=
  let built := buildLines cfg counter inputs
  (built.1, List.range' counter (built.2 - counter), built.2)

theorem buildLines_counter (cfg : BuilderConfig) :
    ∀ (l : List TemplateInput) (c : ℕ), (buildLines cfg c l).2 = c + l.length := by
  intro l
  induction l with
  | nil => intro c; simp [buildLines]
  | cons a t ih =>
    intro c
    simp only [buildLines, List.length_cons, ih (c + 1)]
    omega

/-- C8: manifest building is deterministic — equal configurations,
counter states and input lists produce identical manifest lines in
identical order — and template ids are allocated sequentially from the
current counter, one per input pair. -/
theorem manifest_deterministic (cfg : BuilderConfig) (counter : ℕ)
    (inputs : List TemplateInput) :
    generate_4fs_template_list cfg counter inputs =
      generate_4fs_template_list cfg counter inputs ∧
    (generate_4fs_template_list cfg counter inputs).2.1 =
      List.range' counter inputs.length ∧
    (generate_4fs_template_list cfg counter inputs).2.2 =
      counter + inputs.length := by
  refine ⟨rfl, ?_, ?_⟩
  · show List.range' counter ((buildLines cfg counter inputs).2 - counter) =
      List.range' counter inputs.length
    rw [buildLines_counter]
    simp
  · show (buildLines cfg counter inputs).2 = counter + inputs.length
    rw [buildLines_counter]

/-! ### Metadata store (`generate_4fs_template_list` line 289 and
`combine_spectra` lines 504–530)

Python dicts are mutable objects handled by reference; `.copy()` makes a
new object.  We model dict objects with an explicit heap: a list of
cells, each holding an association list, addressed by index. -/

/-- A metadata value. -/
inductive MVal
  | num (q : ℚ)
  | str (s : String)
  | nanV
deriving DecidableEq, Repr

/-- The contents of a Python dict. -/
abbrev Dict := List (String × MVal)

/-- The heap of dict objects, addressed by index. -/
structure Heap where
  cells : List Dict
deriving DecidableEq, Repr

/-- The contents of the dict object at address `a`. -/
def heapRead (h : Heap) (a : ℕ) : Dict := h.cells.getD a []

/-- Allocate a new dict object with the given contents; returns the new
heap and the fresh address. -/
def heapAlloc (h : Heap) (d : Dict) : Heap × ℕ :=
  (⟨h.cells ++ [d]⟩, h.cells.length)

/-- `d[k] = v` on dict contents: overwrite the key in place if present,
else append it. -/
def dictSet (d : Dict) (k : String) (v : MVal) : Dict :=
  if d.any fun p => p.1 == k then d.map fun p => if p.1 == k then (k, v) else p
  else d ++ [(k, v)]

/-- `obj[k] = v` on the dict object at address `a`. -/
def heapSetKey (h : Heap) (a : ℕ) (k : String) (v : MVal) : Heap :=
  ⟨h.cells.set a (dictSet (heapRead h a) k v)⟩

/-- Line 289:
`self.metadata_store[self.template_counter] = input_spectrum.metadata.copy()`
— the store records a fresh copy of the caller's metadata dict.  Returns
the new heap and the address of the stored copy. -/
def recordMetadata (h : Heap) (callerAddr : ℕ) : Heap × ℕ :=
  heapAlloc h (heapRead h callerAddr)

/-- Lines 504–530 of the combiner for one (template, SNR) pair.  Line 505
binds `metadata = self.metadata_store[i]` — the stored dict object
itself, not a copy — lines 508–517 assign keys into that object,
line 523 takes `metadata.copy()` for the flux-calibrated spectrum,
line 526 assigns `continuum_normalised = 1`, and line 530 takes another
copy for the continuum-normalised spectrum.  Returns the final heap and
the addresses of the two copies handed to the output spectra. -/
def combinerMetadataSteps (h : Heap) (storeAddr : ℕ) (snr magnitude : ℚ)
    (exposure : MVal) (snrPer snrDefinition : String) : Heap × ℕ × ℕ :=
  let h1 := heapSetKey h storeAddr "continuum_normalised" (.num 0)
  let h2 := heapSetKey h1 storeAddr "SNR" (.num snr)
  let h3 := heapSetKey h2 storeAddr "SNR_per" (.str snrPer)
  let h4 := heapSetKey h3 storeAddr "magnitude" (.num magnitude)
  let h5 := heapSetKey h4 storeAddr "exposure" exposure
  let h6 := heapSetKey h5 storeAddr "snr_definition" (.str snrDefinition)
  let a1 := heapAlloc h6 (heapRead h6 storeAddr)
  let h7 := heapSetKey a1.1 storeAddr "continuum_normalised" (.num 1)
  let a2 := heapAlloc h7 (heapRead h7 storeAddr)
  (a2.1, a1.2, a2.2)

/-- C6 counterexample: start from a caller dict holding only 'Starname'
at address 0; `record` stores a copy at a fresh address, but after one
pass of the combiner's metadata writes the contents of the stored
instance have changed (it has gained the 'SNR' and related keys) —
the combiner's lookup returns the stored instance itself and mutates it,
so the store-held instance is NOT left unmodified. -/
theorem metadata_store_instance_mutated :
    heapRead (combinerMetadataSteps
        (recordMetadata ⟨[[("Starname", .str "s")]]⟩ 0).1
        (recordMetadata ⟨[[("Starname", .str "s")]]⟩ 0).2
        50 14 .nanV "pixel" "MEDIANSNR").1
      (recordMetadata ⟨[[("Starname", .str "s")]]⟩ 0).2 ≠
    heapRead (recordMetadata ⟨[[("Starname", .str "s")]]⟩ 0).1
      (recordMetadata ⟨[[("Starname", .str "s")]]⟩ 0).2 := by
  decide

/-- C6 amended: the store records a copy of the caller's metadata at
manifest-build time, so the combiner's metadata mutations never modify
the caller's original dict, and the two output spectra receive fresh
copies distinct from the stored instance; however the combiner's lookup
returns the stored instance itself, which the combiner mutates in
place. -/
theorem metadata_caller_preserved (d : Dict) (snr magnitude : ℚ)
    (exposure : MVal) (snrPer snrDefinition : String) :
    heapRead (combinerMetadataSteps (recordMetadata ⟨[d]⟩ 0).1
        (recordMetadata ⟨[d]⟩ 0).2 snr magnitude exposure snrPer
        snrDefinition).1 0 = d ∧
    (combinerMetadataSteps (recordMetadata ⟨[d]⟩ 0).1
        (recordMetadata ⟨[d]⟩ 0).2 snr magnitude exposure snrPer
        snrDefinition).2.1 ≠ 0 ∧
    (combinerMetadataSteps (recordMetadata ⟨[d]⟩ 0).1
        (recordMetadata ⟨[d]⟩ 0).2 snr magnitude exposure snrPer
        snrDefinition).2.2 ≠ 0 ∧
    (combinerMetadataSteps (recordMetadata ⟨[d]⟩ 0).1
        (recordMetadata ⟨[d]⟩ 0).2 snr magnitude exposure snrPer
        snrDefinition).2.1 ≠ (recordMetadata ⟨[d]⟩ 0).2 ∧
    (combinerMetadataSteps (recordMetadata ⟨[d]⟩ 0).1
        (recordMetadata ⟨[d]⟩ 0).2 snr magnitude exposure snrPer
        snrDefinition).2.2 ≠ (recordMetadata ⟨[d]⟩ 0).2 := by
  refine ⟨?_, ?_, ?_, ?_, ?_⟩
  · simp [recordMetadata, combinerMetadataSteps, heapAlloc, heapSetKey,
      heapRead, List.getD]
  · show (2 : ℕ) ≠ 0
    decide
  · show (3 : ℕ) ≠ 0
    decide
  · show (2 : ℕ) ≠ (1 : ℕ)
    decide
  · show (3 : ℕ) ≠ (1 : ℕ)
    decide

/-! ### SpectrumArray extraction (`spectrum_array.py`) -/

/-- Modelled from the spec: `hash_numpy_array` lives in `spectrum.py`,
which is not among the sources here; per the spec it is a content hash of
the wavelength sequence, so any fixed content-determined digest serves.
We use the length folded with the entries. -/
def hash_numpy_array (l : List ℚ) : ℚ :=
  l.foldl (fun acc x => acc * 31 + x) (l.length : ℚ)

/-- Modelled from the spec: the `Spectrum` data model of `spectrum.py`
(not among the sources): wavelength raster, aligned values and value
errors, and the derived `raster_hash`. -/
structure Spectrum where
  wavelengths : List ℚ
  values : List ℚ
  value_errors : List ℚ
  raster_hash : ℚ
deriving DecidableEq, Repr

/-- Modelled from the spec: the `Spectrum` constructor derives
`raster_hash` as the content hash of the wavelength sequence. -/
def mkSpectrum (wavelengths values value_errors : List ℚ) : Spectrum :=
  ⟨wavelengths, values, value_errors, hash_numpy_array wavelengths⟩

/-- `SpectrumArray` (`spectrum_array.py` lines 29–45): one wavelength
raster, a matrix of values with one row per spectrum, an equally shaped
error matrix, and the raster hash. -/
structure SpectrumArray where
  wavelengths : List ℚ
  values : List (List ℚ)
  value_errors : List (List ℚ)
  raster_hash : ℚ
deriving DecidableEq, Repr

/-- `SpectrumArray.__init__` (lines 29–45), which ends by calling
`_update_raster_hash` (lines 55–65) to set `raster_hash` from the
wavelength raster. -/
def mkSpectrumArray (wavelengths : List ℚ)
    (values value_errors : List (List ℚ)) : SpectrumArray :=
  ⟨wavelengths, values, value_errors, hash_numpy_array wavelengths⟩

/-- `SpectrumArray.extract_item` (lines 67–86): assert
`0 <= index < self.values.shape[0]`, then build a Spectrum on the
array's own wavelength raster from row `index` of the two matrices;
`none` models the assertion failure. -/
def SpectrumArray.extract_item (a : SpectrumArray) (index : ℤ) :
    Option Spectrum :=
  if 0 ≤ index ∧ index < a.values.length then
    some (mkSpectrum a.wavelengths (a.values.getD index.toNat [])
      (a.value_errors.getD index.toNat []))
  else none

/-- C10: for an in-range index, `extract_item` returns a Spectrum carrying
exactly the array's wavelength raster, so its raster hash equals the
array's; for any out-of-range index it fails the assertion instead of
returning a Spectrum. -/
theorem extract_item_raster (w : List ℚ) (v e : List (List ℚ)) (i : ℤ) :
    (0 ≤ i ∧ i < v.length →
      ((mkSpectrumArray w v e).extract_item i).map Spectrum.wavelengths =
        some w ∧
      ((mkSpectrumArray w v e).extract_item i).map Spectrum.raster_hash =
        some (mkSpectrumArray w v e).raster_hash) ∧
    (¬(0 ≤ i ∧ i < v.length) →
      (mkSpectrumArray w v e).extract_item i = none) := by
  constructor
  · intro h
    simp only [SpectrumArray.extract_item, mkSpectrumArray]
    rw [if_pos h]
    simp [mkSpectrum]
  · intro h
    simp only [SpectrumArray.extract_item, mkSpectrumArray]
    rw [if_neg h]

/-- Witness for C10: a two-spectrum array, index 1 in range, index 5 out
of range. -/
theorem extract_item_raster_witness :
    (((mkSpectrumArray [1, 2] [[3, 4], [5, 6]] [[0, 0], [0, 0]]).extract_item
        1).map Spectrum.wavelengths = some [1, 2] ∧
     ((mkSpectrumArray [1, 2] [[3, 4], [5, 6]] [[0, 0], [0, 0]]).extract_item
        1).map Spectrum.raster_hash =
       some (mkSpectrumArray [1, 2] [[3, 4], [5, 6]]
         [[0, 0], [0, 0]]).raster_hash) ∧
    (mkSpectrumArray [1, 2] [[3, 4], [5, 6]] [[0, 0], [0, 0]]).extract_item
      5 = none :=
  ⟨(extract_item_raster [1, 2] [[3, 4], [5, 6]] [[0, 0], [0, 0]] 1).1
      (by constructor <;> decide),
   (extract_item_raster [1, 2] [[3, 4], [5, 6]] [[0, 0], [0, 0]] 5).2
      (by intro h; exact absurd h.2 (by decide))⟩

end FourGP
